import Mathlib

/-!
Verification of the streaming sign-language detection pipeline.

The definitions below are a shallow embedding of the two core source files:

* `src/utils/SignLanguageDetector.ts` — the detector class holding the
  rolling `sequenceBuffer` of landmark frames (capacity `SEQUENCE_LENGTH = 30`),
  the landmark extractor `extractHandLandmarks`, and `detectGesture`.
* `src/context/SignLanguageContext.tsx` — the React context whose
  `processFrame` callback throttles ticks (500 ms), guards re-entrance with a
  busy flag, smooths the confidence signal (decay factor 0.9, clear
  threshold 0.4), deduplicates predictions against the tail of the history
  (window 1000 ms) and caps the history at 50 entries via `slice(-50)`.

Numeric values (JS `number`) are modelled as `ℚ` for confidences and
coordinates and as `ℤ` for millisecond timestamps.  The classifier
(`model.predict` plus argmax and label lookup) is an external port and is
modelled as an abstract parameter `classify : List Frame → String × ℚ`.
-/

/-- A landmark frame: one ordered vector of normalized coordinates
(`number[]` in the source). -/
abbrev Frame := List ℚ

/-- Window capacity `SEQUENCE_LENGTH = 30` in `SignLanguageDetector.ts`. -/
def SEQUENCE_LENGTH : ℕ := 30

/-- Frame dimensionality `LANDMARK_COUNT = 42` in `SignLanguageDetector.ts` (21 landmarks × 2). -/
def LANDMARK_COUNT : ℕ := 42

/-- The buffer update in `detectGesture`:
`sequenceBuffer.push(landmarks); if (length > SEQUENCE_LENGTH) shift();`. -/
def pushFrame (buf : List Frame) (f : Frame) : List Frame :=
  if SEQUENCE_LENGTH < (buf ++ [f]).length then (buf ++ [f]).tail else buf ++ [f]

/-- Folding `pushFrame` over a whole arrival sequence, starting from the
empty buffer (the detector's initial `sequenceBuffer = []`). -/
def runPushes (frames : List Frame) : List Frame :=
  frames.foldl pushFrame []

/-- A prediction history entry (`interface Prediction` in
`SignLanguageContext.tsx`). -/
structure Prediction where
  gesture : String
  confidence : ℚ
  timestamp : ℤ
deriving DecidableEq

/-- The history append of `SignLanguageContext.tsx`:
`updated = [...prev, newPrediction]; return updated.slice(-50);`. -/
def historyAppend (prev : List Prediction) (p : Prediction) : List Prediction :=
  (prev ++ [p]).drop ((prev ++ [p]).length - 50)

/-- The full `setPredictionHistory` updater of `processFrame`: drop the new
prediction if it repeats the gesture of the current tail within 1000 ms,
otherwise append (evicting down to the most recent 50). -/
def historyUpdate (prev : List Prediction) (p : Prediction) : List Prediction :=
  match prev.getLast? with
  | some lastP =>
      if lastP.gesture = p.gesture ∧ p.timestamp - lastP.timestamp < 1000 then
        prev
      else
        historyAppend prev p
  | none => historyAppend prev p

/-- Folding plain appends over a whole event sequence (Scenario E of the
spec exercises `append` alone). -/
def runAppends (events : List Prediction) : List Prediction :=
  events.foldl historyAppend []

/-- Model of `clearHistory` in `SignLanguageContext.tsx`: `setPredictionHistory([])`. -/
def clearHistory (_h : List Prediction) : List Prediction := []

/-! ### Closed forms for the two FIFO buffers -/

theorem runPushes_append (frames : List Frame) (f : Frame) :
    runPushes (frames ++ [f]) = pushFrame (runPushes frames) f := by
  simp [runPushes, List.foldl_append]

theorem runPushes_eq (frames : List Frame) :
    runPushes frames = frames.drop (frames.length - SEQUENCE_LENGTH) := by
  induction frames using List.reverseRecOn with
  | nil => simp [runPushes]
  | append_singleton xs x ih =>
      rw [runPushes_append, ih]
      by_cases h : xs.length < SEQUENCE_LENGTH
      · have h0 : xs.length - SEQUENCE_LENGTH = 0 := by omega
        have hc : ¬ SEQUENCE_LENGTH < (xs ++ [x]).length := by
          simp only [List.length_append, List.length_cons, List.length_nil]; omega
        have h1 : (xs ++ [x]).length - SEQUENCE_LENGTH = 0 := by
          simp only [List.length_append, List.length_cons, List.length_nil]; omega
        rw [h0, List.drop_zero]
        simp only [pushFrame, if_neg hc]
        rw [h1, List.drop_zero]
      · push_neg at h
        have hS : 0 < SEQUENCE_LENGTH := by decide
        have hlen : (xs.drop (xs.length - SEQUENCE_LENGTH)).length = SEQUENCE_LENGTH := by
          rw [List.length_drop]; omega
        have hcond : SEQUENCE_LENGTH <
            (xs.drop (xs.length - SEQUENCE_LENGTH) ++ [x]).length := by
          rw [List.length_append, hlen]; simp
        simp only [pushFrame, if_pos hcond]
        have hne : xs.drop (xs.length - SEQUENCE_LENGTH) ≠ [] := by
          intro hnil
          rw [hnil] at hlen
          simp [SEQUENCE_LENGTH] at hlen
        rw [List.tail_append_of_ne_nil hne, List.tail_drop]
        have hidx : (xs ++ [x]).length - SEQUENCE_LENGTH = xs.length - SEQUENCE_LENGTH + 1 := by
          simp only [List.length_append, List.length_cons, List.length_nil]; omega
        rw [hidx,
          List.drop_append_of_le_length (by omega : xs.length - SEQUENCE_LENGTH + 1 ≤ xs.length)]

theorem runAppends_append (events : List Prediction) (p : Prediction) :
    runAppends (events ++ [p]) = historyAppend (runAppends events) p := by
  simp [runAppends, List.foldl_append]

theorem runAppends_eq (events : List Prediction) :
    runAppends events = events.drop (events.length - 50) := by
  induction events using List.reverseRecOn with
  | nil => simp [runAppends]
  | append_singleton xs x ih =>
      rw [runAppends_append, ih]
      by_cases h : xs.length < 50
      · have h0 : xs.length - 50 = 0 := by omega
        rw [h0, List.drop_zero]
        simp only [historyAppend]
      · push_neg at h
        have hlen : (xs.drop (xs.length - 50)).length = 50 := by
          rw [List.length_drop]; omega
        simp only [historyAppend]
        have hidx1 : (xs.drop (xs.length - 50) ++ [x]).length - 50 = 1 := by
          rw [List.length_append, hlen]
          simp only [List.length_cons, List.length_nil]
        rw [hidx1, List.drop_one]
        have hne : xs.drop (xs.length - 50) ≠ [] := by
          intro hnil
          rw [hnil] at hlen
          simp at hlen
        rw [List.tail_append_of_ne_nil hne, List.tail_drop]
        have hidx2 : (xs ++ [x]).length - 50 = xs.length - 50 + 1 := by
          simp only [List.length_append, List.length_cons, List.length_nil]; omega
        rw [hidx2, List.drop_append_of_le_length (by omega : xs.length - 50 + 1 ≤ xs.length)]

/-! ### Detector and context state machines -/

/-- Model of `interface DetectionResult` in `SignLanguageDetector.ts`. -/
structure DetectionResult where
  gesture : String
  confidence : ℚ
deriving DecidableEq

/-- The mutable fields of `SignLanguageDetector` that the buffer logic
touches (`model` is reduced to its presence). -/
structure DetectorState where
  isInitialized : Bool
  hasModel : Bool
  sequenceBuffer : List Frame
  frameCount : ℕ
deriving DecidableEq

/-- Model of `detectGesture` in `SignLanguageDetector.ts`, with landmark extraction
factored out (`frameOpt` is the extractor's output for this canvas) and the
classifier port abstracted as `classify` (model.predict + argmax + label
lookup).  Returns the updated detector state and the optional result; a
result is only returned when the window is full and the top probability is
strictly above 0.6. -/
def detectGesture (classify : List Frame → String × ℚ) (d : DetectorState)
    (frameOpt : Option Frame) : DetectorState × Option DetectionResult :=
  if !d.isInitialized || !d.hasModel then (d, none)
  else
    let d₁ : DetectorState := { d with frameCount := d.frameCount + 1 }
    match frameOpt with
    | none => (d₁, none)
    | some lm =>
        let d₂ : DetectorState := { d₁ with sequenceBuffer := pushFrame d₁.sequenceBuffer lm }
        if d₂.sequenceBuffer.length < SEQUENCE_LENGTH then (d₂, none)
        else
          let r := classify d₂.sequenceBuffer
          if 3/5 < r.2 then (d₂, some ⟨r.1, r.2⟩) else (d₂, none)

/-- The state owned by `SignLanguageProvider` in `SignLanguageContext.tsx`:
React state (`isDetecting`, `currentPrediction`, `confidence`,
`predictionHistory`, `modelLoaded`) plus the refs (`lastProcessTimeRef`,
`processingRef`, `detectorRef`). -/
structure SysState where
  isDetecting : Bool
  modelLoaded : Bool
  hasDetector : Bool
  currentPrediction : Option String
  confidence : ℚ
  predictionHistory : List Prediction
  lastProcessTime : ℤ
  processing : Bool
  detector : DetectorState
deriving DecidableEq

/-- One invocation of the `processFrame` callback at time `now` (both
`Date.now()` reads inside one tick are modelled as the same instant).  The
`processingRef` flag is set before the detector call and cleared in the
`finally` block, so across the whole tick its net effect is `false`; a tick
entered with `processing = true` returns immediately.  The
`if (confidence < 0.4)` test uses the state value captured when the
callback was created, i.e. the pre-decay confidence. -/
def processFrame (classify : List Frame → String × ℚ) (s : SysState) (now : ℤ)
    (frameOpt : Option Frame) : SysState :=
  if !s.hasDetector || !s.isDetecting || !s.modelLoaded || s.processing then s
  else if now - s.lastProcessTime < 500 then s
  else
    let s₁ : SysState := { s with processing := true, lastProcessTime := now }
    let dr := detectGesture classify s₁.detector frameOpt
    let s₂ : SysState := { s₁ with detector := dr.1 }
    if !s₂.isDetecting then { s₂ with processing := false }
    else
      let s₃ : SysState :=
        match dr.2 with
        | some r =>
            if 3/5 < r.confidence then
              { s₂ with
                currentPrediction := some r.gesture
                confidence := r.confidence
                predictionHistory :=
                  historyUpdate s₂.predictionHistory ⟨r.gesture, r.confidence, now⟩ }
            else
              { s₂ with
                confidence := max 0 (s₂.confidence * (9/10))
                currentPrediction :=
                  if s₂.confidence < 2/5 then none else s₂.currentPrediction }
        | none =>
            { s₂ with
              confidence := max 0 (s₂.confidence * (9/10))
              currentPrediction :=
                if s₂.confidence < 2/5 then none else s₂.currentPrediction }
      { s₃ with processing := false }

/-- Model of `stopDetection` in `SignLanguageContext.tsx`. -/
def stopDetection (s : SysState) : SysState :=
  { s with
    isDetecting := false
    currentPrediction := none
    confidence := 0
    processing := false }

/-- Model of `dispose` in `SignLanguageDetector.ts`. -/
def dispose (d : DetectorState) : DetectorState :=
  { d with hasModel := false, sequenceBuffer := [], isInitialized := false, frameCount := 0 }

/-! ### Branch characterizations of `processFrame` -/

theorem processFrame_busy (classify : List Frame → String × ℚ) (s : SysState) (now : ℤ)
    (fr : Option Frame) (h : s.processing = true) :
    processFrame classify s now fr = s := by
  simp [processFrame, h]

theorem processFrame_throttled (classify : List Frame → String × ℚ) (s : SysState) (now : ℤ)
    (fr : Option Frame) (h : now - s.lastProcessTime < 500) :
    processFrame classify s now fr = s := by
  simp [processFrame, h]

theorem detectGesture_some_conf (classify : List Frame → String × ℚ) (d : DetectorState)
    (fr : Option Frame) (r : DetectionResult)
    (h : (detectGesture classify d fr).2 = some r) : 3/5 < r.confidence := by
  unfold detectGesture at h
  split at h
  · simp at h
  · cases fr with
    | none => simp at h
    | some lm =>
        simp only at h
        split at h
        · simp at h
        · split at h
          · rename_i hconf
            simp only [Prod.snd] at h
            cases h
            exact hconf
          · simp at h

theorem detectGesture_some_conf_le (classify : List Frame → String × ℚ) (d : DetectorState)
    (fr : Option Frame) (r : DetectionResult)
    (h : (detectGesture classify d fr).2 = some r)
    (hcl : ∀ w, (classify w).2 ≤ 1) : r.confidence ≤ 1 := by
  unfold detectGesture at h
  split at h
  · simp at h
  · cases fr with
    | none => simp at h
    | some lm =>
        simp only at h
        split at h
        · simp at h
        · split at h
          · simp only [Prod.snd] at h
            cases h
            exact hcl _
          · simp at h

theorem processFrame_accept (classify : List Frame → String × ℚ) (s : SysState) (now : ℤ)
    (fr : Option Frame) (r : DetectionResult)
    (hD : s.hasDetector = true) (hI : s.isDetecting = true) (hM : s.modelLoaded = true)
    (hP : s.processing = false) (hth : ¬ now - s.lastProcessTime < 500)
    (hr : (detectGesture classify s.detector fr).2 = some r) :
    processFrame classify s now fr =
      { s with
        currentPrediction := some r.gesture
        confidence := r.confidence
        predictionHistory := historyUpdate s.predictionHistory ⟨r.gesture, r.confidence, now⟩
        lastProcessTime := now
        detector := (detectGesture classify s.detector fr).1 } := by
  have hconf := detectGesture_some_conf classify s.detector fr r hr
  simp [processFrame, hD, hI, hM, hP, hth, hr, hconf]

theorem processFrame_decay (classify : List Frame → String × ℚ) (s : SysState) (now : ℤ)
    (fr : Option Frame)
    (hD : s.hasDetector = true) (hI : s.isDetecting = true) (hM : s.modelLoaded = true)
    (hP : s.processing = false) (hth : ¬ now - s.lastProcessTime < 500)
    (hr : (detectGesture classify s.detector fr).2 = none) :
    processFrame classify s now fr =
      { s with
        confidence := max 0 (s.confidence * (9/10))
        currentPrediction := if s.confidence < 2/5 then none else s.currentPrediction
        lastProcessTime := now
        detector := (detectGesture classify s.detector fr).1 } := by
  simp [processFrame, hD, hI, hM, hP, hth, hr]

/-! ### Landmark extraction (`extractHandLandmarks` in `SignLanguageDetector.ts`)

Transcendentals (`Math.sin`, `Math.cos`), the ambient clock and `Math.random`
are modelled as an abstract environment of rational-valued functions; the
canvas pixel data is a flat RGBA array `ℕ → ℤ`. -/

structure Env where
  sinq : ℚ → ℚ
  cosq : ℚ → ℚ
  random : ℕ → ℚ
  timeSec : ℚ

structure Canvas where
  width : ℕ
  height : ℕ
  ctx : Option (ℕ → ℤ)

/-- Model of `isSkinColor` in `SignLanguageDetector.ts` (three detection methods). -/
def isSkinColor (r g b : ℤ) : Bool :=
  decide ((95 < r ∧ 40 < g ∧ 20 < b ∧ g < r ∧ b < r ∧ 15 < |r - g|) ∨
          (220 < r ∧ 210 < g ∧ 170 < b ∧ |r - g| ≤ 15 ∧ b < r ∧ b < g) ∨
          (95 < r ∧ 40 < g ∧ 20 < b ∧ 15 < r - g ∧ 15 < r - b))

/-- The pixel positions visited by the two nested loops
(`for y step 4; for x step 4`), outer `y`, inner `x`. -/
def samplePoints (width height : ℕ) : List (ℕ × ℕ) :=
  ((List.range ((height + 3) / 4)).map (· * 4)).flatMap fun y =>
    ((List.range ((width + 3) / 4)).map (· * 4)).map fun x => (x, y)

/-- The skin scan: accumulates `(handCenterX, handCenterY, skinPixelCount)`. -/
def scanSkin (data : ℕ → ℤ) (width height : ℕ) : ℚ × ℚ × ℕ :=
  (samplePoints width height).foldl
    (fun acc pt =>
      let idx := (pt.2 * width + pt.1) * 4
      if isSkinColor (data idx) (data (idx + 1)) (data (idx + 2)) then
        (acc.1 + (pt.1 : ℚ), acc.2.1 + (pt.2 : ℚ), acc.2.2 + 1)
      else acc)
    (0, 0, 0)

/-- Clamp `Math.max(0, Math.min(1, x))` applied to each landmark coordinate. -/
def clamp01 (x : ℚ) : ℚ := max 0 (min 1 x)

/-- The 21 per-landmark offsets of `getFingerOffset`. -/
def fingerOffsets : List (ℚ × ℚ) :=
  [(0, 0), (-2/100, -3/100), (-4/100, -6/100), (-6/100, -8/100), (-8/100, -10/100),
   (2/100, -8/100), (3/100, -12/100), (4/100, -15/100), (5/100, -18/100),
   (6/100, -6/100), (8/100, -12/100), (9/100, -16/100), (10/100, -20/100),
   (8/100, -4/100), (9/100, -8/100), (10/100, -12/100), (11/100, -15/100),
   (6/100, -1/100), (7/100, -4/100), (8/100, -7/100), (9/100, -10/100)]

/-- Lookup `getFingerOffset` (`offsets[landmarkIndex] || (0, 0)` in the source). -/
def getFingerOffset (i : ℕ) : ℚ × ℚ := fingerOffsets.getD i (0, 0)

/-- One landmark x-coordinate of the generation loop. -/
def landmarkX (env : Env) (cX : ℚ) (i : ℕ) : ℚ :=
  clamp01 (cX + (getFingerOffset i).1
    + env.sinq (env.timeSec * 2 + (i : ℚ) * (1/10)) * (2/100)
    + (env.random (2 * i) - 1/2) * (1/100))

/-- One landmark y-coordinate of the generation loop. -/
def landmarkY (env : Env) (cY : ℚ) (i : ℕ) : ℚ :=
  clamp01 (cY + (getFingerOffset i).2
    + env.cosq (env.timeSec * (3/2) + (i : ℚ) * (1/10)) * (2/100)
    + (env.random (2 * i + 1) - 1/2) * (1/100))

/-- The loop `for (i = 0; i < 21; i++) { landmarks.push(x); landmarks.push(y) }`. -/
def buildLandmarks (env : Env) (cX cY : ℚ) : List ℚ :=
  (List.range 21).foldl (fun acc i => acc ++ [landmarkX env cX i, landmarkY env cY i]) []

/-- Model of `extractHandLandmarks`: a `null` context, a zero-sized canvas or fewer than
50 sampled skin pixels yield no frame; otherwise 21 landmark pairs are built
around the normalized skin-pixel centroid. -/
def extractHandLandmarks (env : Env) (c : Canvas) : Option Frame :=
  match c.ctx with
  | none => none
  | some data =>
      if c.width = 0 ∨ c.height = 0 then none
      else
        let st := scanSkin data c.width c.height
        if st.2.2 < 50 then none
        else
          some (buildLandmarks env
            (st.1 / (st.2.2 : ℚ) / (c.width : ℚ))
            (st.2.1 / (st.2.2 : ℚ) / (c.height : ℚ)))

theorem foldl_two_length (l : List ℕ) (acc : List ℚ) (f g : ℕ → ℚ) :
    (l.foldl (fun a i => a ++ [f i, g i]) acc).length = acc.length + 2 * l.length := by
  induction l generalizing acc with
  | nil => simp
  | cons x xs ih =>
      rw [List.foldl_cons, ih]
      simp
      omega

theorem buildLandmarks_length (env : Env) (cX cY : ℚ) :
    (buildLandmarks env cX cY).length = LANDMARK_COUNT := by
  unfold buildLandmarks
  rw [foldl_two_length]
  simp [LANDMARK_COUNT]

theorem extract_some_length (env : Env) (c : Canvas) (f : Frame)
    (h : extractHandLandmarks env c = some f) : f.length = LANDMARK_COUNT := by
  unfold extractHandLandmarks at h
  split at h
  · simp at h
  · split at h
    · simp at h
    · dsimp only at h
      split at h
      · simp at h
      · rw [Option.some_inj] at h
        rw [← h]
        exact buildLandmarks_length ..

theorem mem_pushFrame (buf : List Frame) (f g : Frame) (hg : g ∈ pushFrame buf f) :
    g ∈ buf ∨ g = f := by
  unfold pushFrame at hg
  split at hg
  · have hmem : g ∈ buf ++ [f] := List.tail_subset _ hg
    rcases List.mem_append.1 hmem with h | h
    · exact Or.inl h
    · exact Or.inr (List.mem_singleton.1 h)
  · rcases List.mem_append.1 hg with h | h
    · exact Or.inl h
    · exact Or.inr (List.mem_singleton.1 h)

theorem detectGesture_buffer (classify : List Frame → String × ℚ) (d : DetectorState)
    (fr : Option Frame) :
    (detectGesture classify d fr).1.sequenceBuffer = d.sequenceBuffer ∨
    ∃ f, fr = some f ∧
      (detectGesture classify d fr).1.sequenceBuffer = pushFrame d.sequenceBuffer f := by
  unfold detectGesture
  split
  · exact Or.inl rfl
  · cases fr with
    | none => exact Or.inl rfl
    | some lm =>
        refine Or.inr ⟨lm, rfl, ?_⟩
        simp only
        split
        · rfl
        · split <;> rfl

theorem detectGesture_buffer_none (classify : List Frame → String × ℚ) (d : DetectorState) :
    (detectGesture classify d none).1.sequenceBuffer = d.sequenceBuffer := by
  unfold detectGesture
  split <;> rfl

/-! ### Concrete fixtures for the instance theorems -/

/-- A well-formed landmark frame (42 coordinates). -/
def f42 : Frame := List.replicate 42 (1/2 : ℚ)

/-- A classifier that is always fully confident. -/
def clUnit : List Frame → String × ℚ := fun _ => ("hello", 1)

/-- A classifier that always reports probability exactly 3/5 = 0.6. -/
def cl35 : List Frame → String × ℚ := fun _ => ("hello", 3/5)

def dBase : DetectorState :=
  { isInitialized := true, hasModel := true, sequenceBuffer := [], frameCount := 0 }

def sBase : SysState :=
  { isDetecting := true
    modelLoaded := true
    hasDetector := true
    currentPrediction := none
    confidence := 0
    predictionHistory := []
    lastProcessTime := 0
    processing := false
    detector := dBase }

/-- Detection running with 29 buffered frames and smoothed confidence 1/2. -/
def sHalf : SysState :=
  { sBase with
    confidence := 1/2
    detector := { dBase with sequenceBuffer := List.replicate 29 f42 } }

/-- Detection running with smoothed confidence 0.42 and a visible gesture. -/
def sPoint42 : SysState :=
  { sBase with confidence := 42/100, currentPrediction := some "hello" }

/-- A tick arriving while an inference call is in flight. -/
def sBusy : SysState := { sBase with processing := true }

/-- Detection running with one frame in the window. -/
def sWin : SysState := { sBase with detector := { dBase with sequenceBuffer := [f42] } }

def pHello0 : Prediction := ⟨"hello", 1, 0⟩
def pHello500 : Prediction := ⟨"hello", 1, 500⟩
def pHello1500 : Prediction := ⟨"hello", 1, 1500⟩

theorem historyAppend_getLast (prev : List Prediction) (p : Prediction) :
    (historyAppend prev p).getLast? = some p := by
  unfold historyAppend
  rw [List.drop_append_of_le_length (by
    simp only [List.length_append, List.length_cons, List.length_nil]
    omega)]
  simp

/-! ### The claims -/

/-- C1: for every sequence of frames pushed into the sequence window, the
window's length never exceeds W = 30, and once 30 or more frames have been
pushed the window contains exactly the last 30 pushed frames in arrival order,
oldest evicted first (FIFO). -/
theorem seqWindow_capacity_fifo (frames : List Frame) :
    (runPushes frames).length ≤ SEQUENCE_LENGTH ∧
    (SEQUENCE_LENGTH ≤ frames.length →
      runPushes frames = frames.drop (frames.length - SEQUENCE_LENGTH)) := by
  constructor
  · rw [runPushes_eq, List.length_drop]
    omega
  · intro _
    exact runPushes_eq frames

theorem seqWindow_capacity_fifo_witness :
    SEQUENCE_LENGTH ≤ (List.replicate 31 ([] : Frame)).length ∧
    (runPushes (List.replicate 31 ([] : Frame))).length ≤ SEQUENCE_LENGTH ∧
    runPushes (List.replicate 31 ([] : Frame)) =
      (List.replicate 31 ([] : Frame)).drop
        ((List.replicate 31 ([] : Frame)).length - SEQUENCE_LENGTH) :=
  ⟨by decide, (seqWindow_capacity_fifo (List.replicate 31 ([] : Frame))).1,
    (seqWindow_capacity_fifo (List.replicate 31 ([] : Frame))).2 (by decide)⟩

/-- C2: for every accepted classification result at time t: if its gesture
equals the history tail's gesture and the timestamps differ by less than
1000 ms, the history (the dedup state) is unchanged; otherwise exactly the
new event is appended (becoming the new tail, i.e. the new dedup state); on
an empty history (first accepted result) the event is always emitted. -/
theorem dedup_accept_law (prev : List Prediction) (p : Prediction) :
    (∀ lp, prev.getLast? = some lp → lp.gesture = p.gesture →
      p.timestamp - lp.timestamp < 1000 → historyUpdate prev p = prev) ∧
    (∀ lp, prev.getLast? = some lp →
      ¬(lp.gesture = p.gesture ∧ p.timestamp - lp.timestamp < 1000) →
      historyUpdate prev p = historyAppend prev p ∧
      (historyUpdate prev p).getLast? = some p) ∧
    (prev = [] → historyUpdate prev p = [p]) := by
  refine ⟨?_, ?_, ?_⟩
  · intro lp hl hg ht
    unfold historyUpdate
    rw [hl]
    simp [hg, ht]
  · intro lp hl hcond
    have heq : historyUpdate prev p = historyAppend prev p := by
      unfold historyUpdate
      rw [hl]
      simp only [if_neg hcond]
    exact ⟨heq, heq ▸ historyAppend_getLast prev p⟩
  · intro hnil
    subst hnil
    simp [historyUpdate, historyAppend]

theorem dedup_accept_law_witness :
    [pHello0].getLast? = some pHello0 ∧
    historyUpdate [pHello0] pHello500 = [pHello0] ∧
    ¬(pHello0.gesture = pHello1500.gesture ∧
      pHello1500.timestamp - pHello0.timestamp < 1000) ∧
    historyUpdate [pHello0] pHello1500 = historyAppend [pHello0] pHello1500 ∧
    (historyUpdate [pHello0] pHello1500).getLast? = some pHello1500 ∧
    historyUpdate [] pHello0 = [pHello0] := by
  refine ⟨rfl, ?_, by decide, ?_, ?_, ?_⟩
  · exact (dedup_accept_law [pHello0] pHello500).1 pHello0 rfl rfl (by decide)
  · exact ((dedup_accept_law [pHello0] pHello1500).2.1 pHello0 rfl (by decide)).1
  · exact ((dedup_accept_law [pHello0] pHello1500).2.1 pHello0 rfl (by decide)).2
  · exact (dedup_accept_law [] pHello0).2.2 rfl

/-- C8: for every sequence of appends the prediction history's length never
exceeds H = 50, and appending to a history already holding 50 evicts exactly
the oldest entry, keeping the most recent 50 in order. -/
theorem history_capacity_law (events prev : List Prediction) (p : Prediction) :
    (runAppends events).length ≤ 50 ∧
    (prev.length = 50 → historyAppend prev p = prev.tail ++ [p]) := by
  constructor
  · rw [runAppends_eq, List.length_drop]
    omega
  · intro h50
    unfold historyAppend
    have hidx : (prev ++ [p]).length - 50 = 1 := by
      simp only [List.length_append, List.length_cons, List.length_nil, h50]
    rw [hidx, List.drop_one]
    have hne : prev ≠ [] := by
      intro hnil
      rw [hnil] at h50
      simp at h50
    rw [List.tail_append_of_ne_nil hne]

theorem history_capacity_law_witness :
    (runAppends (List.replicate 51 pHello0)).length ≤ 50 ∧
    (List.replicate 50 pHello0).length = 50 ∧
    historyAppend (List.replicate 50 pHello0) pHello0 =
      (List.replicate 50 pHello0).tail ++ [pHello0] :=
  ⟨(history_capacity_law (List.replicate 51 pHello0) (List.replicate 50 pHello0) pHello0).1,
   by decide,
   (history_capacity_law (List.replicate 51 pHello0) (List.replicate 50 pHello0) pHello0).2
     (by decide)⟩

/-- C10: because the dedup memory is the history tail, `clearHistory` resets
it: a result that would have been deduplicated against the old tail (same
gesture, gap < 1000 ms) is dropped on the old history but always emitted as a
fresh event right after `clearHistory`. -/
theorem clearHistory_resets_dedup (h : List Prediction) (p lp : Prediction)
    (hl : h.getLast? = some lp) (hg : lp.gesture = p.gesture)
    (ht : p.timestamp - lp.timestamp < 1000) :
    historyUpdate h p = h ∧ historyUpdate (clearHistory h) p = [p] := by
  constructor
  · unfold historyUpdate
    rw [hl]
    simp [hg, ht]
  · simp [clearHistory, historyUpdate, historyAppend]

theorem clearHistory_resets_dedup_witness :
    [pHello0].getLast? = some pHello0 ∧
    pHello0.gesture = pHello500.gesture ∧
    pHello500.timestamp - pHello0.timestamp < 1000 ∧
    historyUpdate [pHello0] pHello500 = [pHello0] ∧
    historyUpdate (clearHistory [pHello0]) pHello500 = [pHello500] := by
  refine ⟨rfl, rfl, by decide, ?_, ?_⟩
  · exact (clearHistory_resets_dedup [pHello0] pHello500 pHello0 rfl rfl (by decide)).1
  · exact (clearHistory_resets_dedup [pHello0] pHello500 pHello0 rfl rfl (by decide)).2

/-- C3 counterexample: with an empty (hence non-full) window and 500 ms
elapsed, `processFrame` still records `now` as the new `lastProcessTime`,
so the update is not gated on window fullness as the claim states. -/
theorem scheduler_counterexample :
    (processFrame clUnit sBase 500 (some ([] : Frame))).lastProcessTime = 500 ∧
    sBase.lastProcessTime = 0 ∧
    sBase.detector.sequenceBuffer.length < SEQUENCE_LENGTH ∧
    (processFrame clUnit sBase 500 (some ([] : Frame))).detector.sequenceBuffer.length
      < SEQUENCE_LENGTH := by
  refine ⟨?_, rfl, by decide, ?_⟩ <;> decide

/-- C3 (amended): for states passing the static guards, the throttle decision
is true iff at least 500 ms elapsed since `lastProcessTime` — window fullness
is not consulted; when false the whole state is unchanged, and when true
`lastProcessTime` is set to `now` in the same atomic step. -/
theorem scheduler_amended (classify : List Frame → String × ℚ) (s : SysState) (now : ℤ)
    (fr : Option Frame)
    (hD : s.hasDetector = true) (hI : s.isDetecting = true)
    (hM : s.modelLoaded = true) (hP : s.processing = false) :
    (now - s.lastProcessTime < 500 → processFrame classify s now fr = s) ∧
    (¬ now - s.lastProcessTime < 500 →
      (processFrame classify s now fr).lastProcessTime = now) := by
  constructor
  · exact processFrame_throttled classify s now fr
  · intro hth
    cases hr : (detectGesture classify s.detector fr).2 with
    | none => rw [processFrame_decay classify s now fr hD hI hM hP hth hr]
    | some r => rw [processFrame_accept classify s now fr r hD hI hM hP hth hr]

theorem scheduler_amended_witness :
    sBase.hasDetector = true ∧ sBase.processing = false ∧
    ((499 : ℤ) - sBase.lastProcessTime < 500) ∧
    processFrame clUnit sBase 499 (some ([] : Frame)) = sBase ∧
    ¬ ((500 : ℤ) - sBase.lastProcessTime < 500) ∧
    (processFrame clUnit sBase 500 (some ([] : Frame))).lastProcessTime = 500 := by
  refine ⟨rfl, rfl, by decide, ?_, by decide, ?_⟩
  · exact (scheduler_amended clUnit sBase 499 (some []) rfl rfl rfl rfl).1 (by decide)
  · exact (scheduler_amended clUnit sBase 500 (some []) rfl rfl rfl rfl).2 (by decide)

/-- C4 counterexample: with a full window the classifier reports probability
exactly 3/5 = 0.6 (so ≥ T_accept = 0.6); the claim demands the smoothed
confidence be set to 3/5, but the code (acceptance check `> 0.6`) decays the
previous 1/2 to 9/20 instead. -/
theorem smoother_counterexample :
    (cl35 (sHalf.detector.sequenceBuffer ++ [f42])).2 = 3/5 ∧
    (processFrame cl35 sHalf 500 (some f42)).detector.sequenceBuffer.length
      = SEQUENCE_LENGTH ∧
    (processFrame cl35 sHalf 500 (some f42)).confidence = 9/20 ∧
    ((9 : ℚ)/20 ≠ 3/5) := by
  have hr : (detectGesture cl35 sHalf.detector (some f42)).2 = none := by
    norm_num [detectGesture, pushFrame, sHalf, sBase, dBase, cl35, f42, SEQUENCE_LENGTH]
  rw [processFrame_decay cl35 sHalf 500 (some f42) rfl rfl rfl rfl (by decide) hr]
  refine ⟨rfl, ?_, ?_, by norm_num⟩
  · norm_num [detectGesture, pushFrame, sHalf, sBase, dBase, cl35, f42, SEQUENCE_LENGTH]
  · show max 0 (sHalf.confidence * (9/10)) = 9/20
    norm_num [sHalf, sBase]

/-- C4 (amended): on every tick passing the guards and throttle, the smoothed
confidence is updated exactly once — set to the result's probability when the
detector returns a result (which forces probability strictly above 0.6), and
otherwise multiplied by 0.9 (floored at 0); it stays in [0,1] and does not
increase on ticks with no accepted result. -/
theorem smoother_amended (classify : List Frame → String × ℚ) (s : SysState) (now : ℤ)
    (fr : Option Frame)
    (hD : s.hasDetector = true) (hI : s.isDetecting = true)
    (hM : s.modelLoaded = true) (hP : s.processing = false)
    (hth : ¬ now - s.lastProcessTime < 500)
    (h0 : 0 ≤ s.confidence) (h1 : s.confidence ≤ 1)
    (hcl : ∀ w, (classify w).2 ≤ 1) :
    ((detectGesture classify s.detector fr).2.elim
        ((processFrame classify s now fr).confidence = max 0 (s.confidence * (9/10)))
        (fun r => (processFrame classify s now fr).confidence = r.confidence ∧
          3/5 < r.confidence)) ∧
    ((detectGesture classify s.detector fr).2 = none →
        (processFrame classify s now fr).confidence ≤ s.confidence) ∧
    0 ≤ (processFrame classify s now fr).confidence ∧
    (processFrame classify s now fr).confidence ≤ 1 := by
  cases hr : (detectGesture classify s.detector fr).2 with
  | none =>
      rw [processFrame_decay classify s now fr hD hI hM hP hth hr]
      have hdecay : max 0 (s.confidence * (9/10)) ≤ s.confidence := by
        apply max_le h0
        calc s.confidence * (9/10) ≤ s.confidence * 1 :=
              mul_le_mul_of_nonneg_left (by norm_num) h0
          _ = s.confidence := mul_one _
      exact ⟨rfl, fun _ => hdecay, le_max_left _ _, le_trans hdecay h1⟩
  | some r =>
      have hconf := detectGesture_some_conf classify s.detector fr r hr
      have hle := detectGesture_some_conf_le classify s.detector fr r hr hcl
      rw [processFrame_accept classify s now fr r hD hI hM hP hth hr]
      have h35 : (0 : ℚ) < 3/5 := by norm_num
      exact ⟨⟨rfl, hconf⟩, by simp, le_of_lt (lt_trans h35 hconf), hle⟩

theorem smoother_amended_witness :
    ¬ ((500 : ℤ) - sBase.lastProcessTime < 500) ∧
    (0 : ℚ) ≤ sBase.confidence ∧ sBase.confidence ≤ 1 ∧
    ((detectGesture clUnit sBase.detector none).2.elim
        ((processFrame clUnit sBase 500 none).confidence = max 0 (sBase.confidence * (9/10)))
        (fun r => (processFrame clUnit sBase 500 none).confidence = r.confidence ∧
          3/5 < r.confidence)) ∧
    0 ≤ (processFrame clUnit sBase 500 none).confidence := by
  have key := smoother_amended clUnit sBase 500 none rfl rfl rfl rfl (by decide)
    (by norm_num [sBase]) (by norm_num [sBase]) (fun w => by norm_num [clUnit])
  exact ⟨by decide, by norm_num [sBase], by norm_num [sBase], key.1, key.2.2.1⟩

/-- C5 counterexample: with pre-tick confidence 0.42 and no accepted result,
this tick's decay takes the smoothed confidence to 0.378 < 0.4, yet the
current gesture is NOT cleared on this tick, because the clear check reads the
pre-decay value 0.42. -/
theorem clear_threshold_counterexample :
    (processFrame clUnit sPoint42 500 none).confidence < 2/5 ∧
    (processFrame clUnit sPoint42 500 none).currentPrediction = some "hello" := by
  have hr : (detectGesture clUnit sPoint42.detector none).2 = none := rfl
  rw [processFrame_decay clUnit sPoint42 500 none rfl rfl rfl rfl (by decide) hr]
  constructor
  · show max 0 (sPoint42.confidence * (9/10)) < 2/5
    norm_num [sPoint42, sBase]
  · show (if sPoint42.confidence < 2/5 then none else sPoint42.currentPrediction)
      = some "hello"
    rw [if_neg (by norm_num [sPoint42, sBase])]
    rfl

/-- C5 (amended): on a tick with no accepted result, the current gesture is
cleared iff the PRE-decay smoothed confidence is below 0.4; a tick whose
decay first drops the confidence below 0.4 keeps the gesture visible until
the next tick. -/
theorem clear_threshold_amended (classify : List Frame → String × ℚ) (s : SysState)
    (now : ℤ) (fr : Option Frame)
    (hD : s.hasDetector = true) (hI : s.isDetecting = true)
    (hM : s.modelLoaded = true) (hP : s.processing = false)
    (hth : ¬ now - s.lastProcessTime < 500)
    (hr : (detectGesture classify s.detector fr).2 = none) :
    (processFrame classify s now fr).currentPrediction =
      if s.confidence < 2/5 then none else s.currentPrediction := by
  rw [processFrame_decay classify s now fr hD hI hM hP hth hr]

theorem clear_threshold_amended_witness :
    (detectGesture clUnit sBase.detector none).2 = none ∧
    (processFrame clUnit sBase 500 none).currentPrediction =
      (if sBase.confidence < 2/5 then none else sBase.currentPrediction) :=
  ⟨rfl, clear_threshold_amended clUnit sBase 500 none rfl rfl rfl rfl (by decide) rfl⟩

/-- C6 counterexample: a frame arriving while the busy flag is set is dropped
entirely — the sequence window is left empty, whereas pushing the frame would
have made it non-empty. -/
theorem busy_frame_counterexample :
    sBusy.processing = true ∧
    (processFrame clUnit sBusy 500 (some ([] : Frame))).detector.sequenceBuffer = [] ∧
    pushFrame sBusy.detector.sequenceBuffer ([] : Frame) = [([] : Frame)] := by
  refine ⟨rfl, ?_, by decide⟩
  rw [processFrame_busy clUnit sBusy 500 (some []) rfl]
  rfl

/-- C6 (amended): a frame arriving while an inference call is in flight is
dropped without any state change — in particular it is NOT pushed into the
sequence window — and no new inference attempt is started until the in-flight
one completes. -/
theorem busy_frame_amended (classify : List Frame → String × ℚ) (s : SysState) (now : ℤ)
    (fr : Option Frame) (h : s.processing = true) :
    processFrame classify s now fr = s := by
  simp [processFrame, h]

theorem busy_frame_amended_witness :
    sBusy.processing = true ∧
    processFrame clUnit sBusy 500 (some ([] : Frame)) = sBusy :=
  ⟨rfl, busy_frame_amended clUnit sBusy 500 (some []) rfl⟩

/-- C7 counterexample: stopping detection leaves the detector's sequence
window untouched (here still holding one frame), so per-session state is NOT
fully reset. -/
theorem stop_reset_counterexample :
    (stopDetection sWin).detector.sequenceBuffer = [f42] ∧
    ([f42] : List Frame) ≠ [] ∧
    (stopDetection sWin).predictionHistory = sWin.predictionHistory :=
  ⟨rfl, by simp, rfl⟩

/-- C7 (amended): `stopDetection` clears the detecting flag, the current
prediction, the smoothed confidence and the busy flag; it leaves the
prediction history (and hence the dedup memory, its tail) and the detector —
including the sequence window — unchanged; the window is cleared only when
the detector is disposed. -/
theorem stop_reset_amended (s : SysState) (d : DetectorState) :
    (stopDetection s).isDetecting = false ∧
    (stopDetection s).currentPrediction = none ∧
    (stopDetection s).confidence = 0 ∧
    (stopDetection s).processing = false ∧
    (stopDetection s).predictionHistory = s.predictionHistory ∧
    (stopDetection s).detector = s.detector ∧
    (dispose d).sequenceBuffer = [] :=
  ⟨rfl, rfl, rfl, rfl, rfl, rfl, rfl⟩

/-- C9: every frame the extractor produces has exactly `LANDMARK_COUNT = 42`
coordinates, so no frame of any other dimensionality can enter the window
(the window invariant is preserved by every `detectGesture` step), and an
input for which extraction fails is dropped with the window's contents and
length unchanged. -/
theorem malformed_frame_law (env : Env) (c : Canvas)
    (classify : List Frame → String × ℚ) (d : DetectorState)
    (hwf : ∀ f ∈ d.sequenceBuffer, f.length = LANDMARK_COUNT) :
    (∀ f ∈ (detectGesture classify d (extractHandLandmarks env c)).1.sequenceBuffer,
        f.length = LANDMARK_COUNT) ∧
    (extractHandLandmarks env c = none →
      (detectGesture classify d (extractHandLandmarks env c)).1.sequenceBuffer
        = d.sequenceBuffer) := by
  constructor
  · intro f hf
    rcases detectGesture_buffer classify d (extractHandLandmarks env c) with hb | ⟨g, hg, hb⟩
    · rw [hb] at hf
      exact hwf f hf
    · rw [hb] at hf
      rcases mem_pushFrame d.sequenceBuffer g f hf with hmem | heq
      · exact hwf f hmem
      · subst heq
        exact extract_some_length env c f hg
  · intro hnone
    rw [hnone, detectGesture_buffer_none]

def envZero : Env := ⟨fun _ => 0, fun _ => 0, fun _ => 0, 0⟩

def cNone : Canvas := ⟨0, 0, none⟩

def dWin : DetectorState := { dBase with sequenceBuffer := [f42] }

theorem malformed_frame_law_witness :
    f42.length = LANDMARK_COUNT ∧
    extractHandLandmarks envZero cNone = none ∧
    (detectGesture clUnit dWin (extractHandLandmarks envZero cNone)).1.sequenceBuffer
      = dWin.sequenceBuffer := by
  have hwf : ∀ f ∈ dWin.sequenceBuffer, f.length = LANDMARK_COUNT := by
    intro f hf
    simp only [dWin, dBase, List.mem_singleton] at hf
    subst hf
    simp [f42, LANDMARK_COUNT]
  have key := malformed_frame_law envZero cNone clUnit dWin hwf
  refine ⟨?_, rfl, key.2 rfl⟩
  have hmem : f42 ∈
      (detectGesture clUnit dWin (extractHandLandmarks envZero cNone)).1.sequenceBuffer := by
    rw [key.2 rfl]
    simp [dWin, dBase]
  exact key.1 f42 hmem
